import Mathlib

/-!
Shallow embedding of the messaging backend (soumia987/massagerie-app):
`src/backend/routes/room.js`, `src/backend/routes/messages.js` and the
mongoose schemas in `src/backend/models/Message.js` (message and room
schemas).

Conventions of the embedding:
* Object ids (users, rooms, messages) are `Nat`.
* Timestamps (`Date.now`, `new Date()`) are `Nat` values passed in as a
  `now` parameter.
* The document store is a `Store` structure holding the `Room`, `Message`
  and `User` collections as lists; mongoose `findById` / `findOne` become
  `List.find?`, `save` of a loaded document becomes an id-keyed map over
  the collection, `$push` / `$pull` on a user's `rooms` become append /
  filter.
* Every route handler becomes a pure function from the store and the
  request to `Nat × Store`: the HTTP status code and the store after the
  request.  Response payload fields needed by the claims (the message
  page and pagination object of `GET /room/:roomId`) are returned
  alongside.
* Joi validation is a boolean predicate computed from the schema.
-/

set_option autoImplicit false

namespace Massagerie

/-- A room membership entry: `{user, joinedAt, role}` of `roomSchema.members`
(`src/backend/models/Message.js`, room schema).  `role` is the string
`"admin"` or `"member"`. -/
structure Member where
  user : Nat
  joinedAt : Nat
  role : String
  deriving Repr, DecidableEq

/-- A room document (`roomSchema` in `src/backend/models/Message.js`). -/
structure Room where
  id : Nat
  name : String
  code : String
  description : Option String
  creator : Nat
  members : List Member
  maxMembers : Nat
  isPrivate : Bool
  lastActivity : Nat
  deriving Repr, DecidableEq

/-- A read receipt entry `{user, readAt}` of `messageSchema.readBy`. -/
structure ReadEntry where
  user : Nat
  readAt : Nat
  deriving Repr, DecidableEq

/-- A message document (`messageSchema` in `src/backend/models/Message.js`).
`createdAt` is the `timestamps: true` creation time used by the
`sort({createdAt: -1})` query. -/
structure Message where
  id : Nat
  content : String
  sender : Nat
  room : Nat
  type : String
  edited : Bool
  editedAt : Option Nat
  readBy : List ReadEntry
  replyTo : Option Nat
  createdAt : Nat
  deriving Repr, DecidableEq

/-- The slice of a `User` document the routes touch: its id and its
`rooms` list (updated via `$push` / `$pull` in `room.js`). -/
structure User where
  id : Nat
  rooms : List Nat
  deriving Repr, DecidableEq

/-- The document store: the three collections. -/
structure Store where
  rooms : List Room
  messages : List Message
  users : List User
  deriving Repr, DecidableEq

/-- `room.save()` on a loaded document: replace the room with this id. -/
def updateRoomById (rooms : List Room) (id : Nat) (r : Room) : List Room :=
  rooms.map fun r2 => if r2.id = id then r else r2

/-- `message.save()` on a loaded document: replace the message with this id. -/
def updateMessageById (msgs : List Message) (id : Nat) (m : Message) :
    List Message :=
  msgs.map fun m2 => if m2.id = id then m else m2

/-- `User.findByIdAndUpdate(uid, {$push: {rooms: rid}})`. -/
def pushRoomToUser (users : List User) (uid rid : Nat) : List User :=
  users.map fun u => if u.id = uid then { u with rooms := u.rooms ++ [rid] } else u

/-- `User.findByIdAndUpdate(uid, {$pull: {rooms: rid}})`: `$pull` removes
every occurrence of the value. -/
def pullRoomFromUser (users : List User) (uid rid : Nat) : List User :=
  users.map fun u => if u.id = uid then { u with rooms := u.rooms.filter (· ≠ rid) } else u

/-- `room.members.some(member => member.user.toString() === req.userId)`. -/
def isMember (r : Room) (uid : Nat) : Bool :=
  r.members.any fun m => m.user = uid

/-- JavaScript `code.toUpperCase()`, character by character (room codes
are alphanumeric ASCII). -/
def jsToUpper (s : String) : String :=
  String.mk (s.data.map Char.toUpper)

/-! ## Room routes (`src/backend/routes/room.js`) -/

/-- Body of `POST /create`; absent fields are `none`. -/
structure CreateRoomBody where
  name : Option String
  code : Option String
  description : Option String
  maxMembers : Option Nat
  isPrivate : Option Bool
  deriving Repr, DecidableEq

/-- `createRoomSchema.validate` (Joi, `room.js` lines 9–15): `name` is a
required string of 1–50 chars, `code` is a REQUIRED string of 4–8 chars,
`description` an optional string of ≤ 200 chars, `maxMembers` an optional
number in 2–100, `isPrivate` an optional boolean. -/
def createRoomValidate (b : CreateRoomBody) : Bool :=
  (match b.name with
   | some n => 1 ≤ n.length && n.length ≤ 50
   | none => false) &&
  (match b.code with
   | some c => 4 ≤ c.length && c.length ≤ 8
   | none => false) &&
  (match b.description with
   | some d => d.length ≤ 200
   | none => true) &&
  (match b.maxMembers with
   | some m => 2 ≤ m && m ≤ 100
   | none => true)

/-- `joinRoomSchema.validate` (`room.js` lines 17–19): `code` is a required
string of 4–8 chars. -/
def joinRoomValidate (code : Option String) : Bool :=
  match code with
  | some c => 4 ≤ c.length && c.length ≤ 8
  | none => false

/-- `POST /create` (`room.js` lines 27–93).  After validation `code` is
present (the Joi schema requires it), so the `if (!code)` generation
branch (lines 40–47) is unreachable and the handler proceeds to the
duplicate-code check.  `freshId` is the id the store assigns the new
room; `now` is the request time. -/
def createRoom (st : Store) (b : CreateRoomBody) (callerId now freshId : Nat) :
    Nat × Store :=
  if ¬ createRoomValidate b then (400, st)
  else
    match b.name, b.code with
    | some name, some code =>
      let codeU := jsToUpper code
      if st.rooms.any (fun r => r.code = codeU) then (409, st)
      else
        let room : Room :=
          { id := freshId
            name := name
            code := codeU
            description := b.description
            creator := callerId
            members := [{ user := callerId, joinedAt := now, role := "admin" }]
            maxMembers := b.maxMembers.getD 50
            isPrivate := b.isPrivate.getD false
            lastActivity := now }
        (201, { st with
                  rooms := st.rooms ++ [room]
                  users := pushRoomToUser st.users callerId freshId })
    | _, _ => (400, st)

/-- `POST /join` (`room.js` lines 96–164). -/
def joinRoom (st : Store) (code : Option String) (callerId now : Nat) :
    Nat × Store :=
  if ¬ joinRoomValidate code then (400, st)
  else
    match code with
    | none => (400, st)
    | some c =>
      match st.rooms.find? (fun r => r.code = jsToUpper c) with
      | none => (404, st)
      | some room =>
        if isMember room callerId then (409, st)
        else if room.maxMembers ≤ room.members.length then (409, st)
        else
          let room2 : Room :=
            { room with
                members := room.members ++
                  [{ user := callerId, joinedAt := now, role := "member" }]
                lastActivity := now }
          (200, { st with
                    rooms := updateRoomById st.rooms room.id room2
                    users := pushRoomToUser st.users callerId room.id })

/-- `POST /:roomId/leave` (`room.js` lines 230–261): filter the caller out
of `members`, save (the pre-save hook refreshes `lastActivity`), `$pull`
the room from the caller's `rooms`. -/
def leaveRoom (st : Store) (roomId callerId now : Nat) : Nat × Store :=
  match st.rooms.find? (fun r => r.id = roomId) with
  | none => (404, st)
  | some room =>
    let room2 : Room :=
      { room with
          members := room.members.filter (fun m => m.user ≠ callerId)
          lastActivity := now }
    (200, { st with
              rooms := updateRoomById st.rooms roomId room2
              users := pullRoomFromUser st.users callerId roomId })

/-! ## Message routes (`src/backend/routes/messages.js`) -/

/-- Pagination metadata returned by `GET /room/:roomId`. -/
structure Pagination where
  currentPage : Nat
  totalPages : Nat
  totalMessages : Nat
  hasMore : Bool
  deriving Repr, DecidableEq

/-- Result of `GET /room/:roomId`: an error status, or 200 with the
message page and the pagination object. -/
inductive ListResult where
  | err (status : Nat)
  | ok (messages : List Message) (pagination : Pagination)
  deriving Repr, DecidableEq

/-- `parseInt(req.query.x) || d`: an absent or zero query value falls back
to the default. -/
def queryIntOr (q : Option Nat) (d : Nat) : Nat :=
  match q with
  | some 0 => d
  | some n => n
  | none => d

/-- Ordering a message query descending by creation time. -/
def newerEq (a b : Message) : Prop :=
  b.createdAt ≤ a.createdAt

instance : DecidableRel newerEq := fun _ _ => Nat.decLe _ _

instance : IsTotal Message newerEq := ⟨fun a b => Nat.le_total b.createdAt a.createdAt⟩

instance : IsTrans Message newerEq := ⟨fun _ _ _ h1 h2 => Nat.le_trans h2 h1⟩

/-- The `.sort({createdAt: -1})` of the message query: newest first. -/
def sortNewestFirst (msgs : List Message) : List Message :=
  List.insertionSort newerEq msgs

/-- `GET /room/:roomId` (`messages.js` lines 17–68): membership check,
then the page `skip = (page-1)*limit` of the newest-first ordering,
reversed to chronological order, with
`totalPages = ceil(total/limit)` (= `(total+limit-1)/limit`) and
`hasMore = skip + messages.length < total`. -/
def listMessages (st : Store) (roomId : Nat) (pageQ limitQ : Option Nat)
    (callerId : Nat) : ListResult :=
  let page := queryIntOr pageQ 1
  let limit := queryIntOr limitQ 50
  let skip := (page - 1) * limit
  match st.rooms.find? (fun r => r.id = roomId) with
  | none => .err 404
  | some room =>
    if ¬ isMember room callerId then .err 403
    else
      let roomMsgs := st.messages.filter (fun m => m.room = roomId)
      let pageMsgs := ((sortNewestFirst roomMsgs).drop skip).take limit
      let total := roomMsgs.length
      .ok pageMsgs.reverse
        { currentPage := page
          totalPages := (total + limit - 1) / limit
          totalMessages := total
          hasMore := decide (skip + pageMsgs.length < total) }

/-- Body of `POST /send`; absent fields are `none`. -/
structure SendBody where
  content : Option String
  roomId : Option Nat
  type : Option String
  replyTo : Option Nat
  deriving Repr, DecidableEq

/-- `sendMessageSchema.validate` (Joi, `messages.js` lines 9–14):
`content` a required string of 1–1000 chars, `roomId` a required string,
`type` optionally one of text/image/file, `replyTo` an optional string. -/
def sendMessageValidate (b : SendBody) : Bool :=
  (match b.content with
   | some c => 1 ≤ c.length && c.length ≤ 1000
   | none => false) &&
  b.roomId.isSome &&
  (match b.type with
   | some t => t = "text" || t = "image" || t = "file"
   | none => true)

/-- `POST /send` (`messages.js` lines 71–133): validate, load the room,
membership check, create the message with `type: type || 'text'` and
`replyTo: replyTo || null`, then set the room's `lastActivity` to now and
save it (the pre-save hook sets it to now as well). -/
def sendMessage (st : Store) (b : SendBody) (callerId now freshId : Nat) :
    Nat × Store :=
  if ¬ sendMessageValidate b then (400, st)
  else
    match b.content, b.roomId with
    | some content, some roomId =>
      match st.rooms.find? (fun r => r.id = roomId) with
      | none => (404, st)
      | some room =>
        if ¬ isMember room callerId then (403, st)
        else
          let msg : Message :=
            { id := freshId
              content := content
              sender := callerId
              room := roomId
              type := b.type.getD "text"
              edited := false
              editedAt := none
              readBy := []
              replyTo := b.replyTo
              createdAt := now }
          let room2 : Room := { room with lastActivity := now }
          (201, { st with
                    messages := st.messages ++ [msg]
                    rooms := updateRoomById st.rooms roomId room2 })
    | _, _ => (400, st)

/-- `POST /:messageId/read` (`messages.js` lines 136–170): load the
message (404 if absent); if the caller has no `readBy` entry yet, append
`{user, readAt: now}` and save; either way answer 200.  There is no
membership check on this route. -/
def markRead (st : Store) (messageId callerId now : Nat) : Nat × Store :=
  match st.messages.find? (fun m => m.id = messageId) with
  | none => (404, st)
  | some msg =>
    if msg.readBy.any (fun r => r.user = callerId) then (200, st)
    else
      (200, { st with
                messages := updateMessageById st.messages messageId
                  { msg with readBy := msg.readBy ++ [{ user := callerId, readAt := now }] } })

/-- JavaScript `String.prototype.trim` whitespace (the characters relevant
here): space, tab, newline, carriage return, form feed, vertical tab. -/
def isJsWhitespace (c : Char) : Bool :=
  c = ' ' || c = '\t' || c = '\n' || c = '\r' || c = '\x0c' || c = '\x0b'

/-- JavaScript `content.trim()`. -/
def jsTrim (s : String) : String :=
  String.mk (((s.data.dropWhile isJsWhitespace).reverse.dropWhile isJsWhitespace).reverse)

/-- The route-level validation of `PUT /:messageId` (`messages.js` lines
177–181): `!content || content.trim().length === 0` rejects with 400.  A
missing or empty `content` is falsy; otherwise only emptiness after
trimming is checked — no length bound. -/
def editContentValid (content : Option String) : Bool :=
  match content with
  | none => false
  | some c => ¬ (jsTrim c).isEmpty

/-- The message model's `maxlength` constraint on `content`
(`src/backend/models/Message.js` lines 3–9), enforced by mongoose at save
time, not by the route. -/
def modelContentMaxOk (s : String) : Bool :=
  s.length ≤ 1000

/-- `PUT /:messageId` (`messages.js` lines 173–217): content check, load
(404), sender check (403), else set trimmed content, `edited := true`,
`editedAt := now`, save. -/
def editMessage (st : Store) (messageId : Nat) (content : Option String)
    (callerId now : Nat) : Nat × Store :=
  if ¬ editContentValid content then (400, st)
  else
    match st.messages.find? (fun m => m.id = messageId) with
    | none => (404, st)
    | some msg =>
      if msg.sender ≠ callerId then (403, st)
      else
        let c := (content.getD "")
        (200, { st with
                  messages := updateMessageById st.messages messageId
                    { msg with
                        content := jsTrim c
                        edited := true
                        editedAt := some now } })

/-- `DELETE /:messageId` (`messages.js` lines 220–249): load (404), sender
check (403), else `findByIdAndDelete`. -/
def deleteMessage (st : Store) (messageId callerId : Nat) : Nat × Store :=
  match st.messages.find? (fun m => m.id = messageId) with
  | none => (404, st)
  | some msg =>
    if msg.sender ≠ callerId then (403, st)
    else
      (200, { st with
                messages := st.messages.filter (fun m => m.id ≠ messageId) })

/-- Number of `readBy` entries a message holds for a given user. -/
def readCountFor (m : Message) (uid : Nat) : Nat :=
  (m.readBy.filter (fun r => r.user = uid)).length

/-! ## Helper lemmas -/

theorem find?_updateMessageById {l : List Message} {mid : Nat} {m : Message}
    (m' : Message) (hfind : l.find? (fun x => x.id = mid) = some m)
    (hid : m'.id = mid) :
    (updateMessageById l mid m').find? (fun x => x.id = mid) = some m' := by
  induction l with
  | nil => simp [List.find?] at hfind
  | cons a t ih =>
    simp only [updateMessageById, List.map_cons]
    by_cases h : a.id = mid
    · rw [if_pos h]
      exact List.find?_cons_of_pos _ (by simp [hid])
    · rw [if_neg h, List.find?_cons_of_neg _ (by simp [h])]
      rw [List.find?_cons_of_neg _ (by simp [h])] at hfind
      exact ih hfind

theorem find?_updateRoomById {l : List Room} {rid : Nat} {r : Room}
    (r' : Room) (hfind : l.find? (fun x => x.id = rid) = some r)
    (hid : r'.id = rid) :
    (updateRoomById l rid r').find? (fun x => x.id = rid) = some r' := by
  induction l with
  | nil => simp [List.find?] at hfind
  | cons a t ih =>
    simp only [updateRoomById, List.map_cons]
    by_cases h : a.id = rid
    · rw [if_pos h]
      exact List.find?_cons_of_pos _ (by simp [hid])
    · rw [if_neg h, List.find?_cons_of_neg _ (by simp [h])]
      rw [List.find?_cons_of_neg _ (by simp [h])] at hfind
      exact ih hfind

/-! ## Shared concrete sample data for witnesses -/

/-- Sample room: id 0, code "ABCD", creator/admin user 1, capacity 2. -/
def exRoom : Room :=
  { id := 0, name := "Team", code := "ABCD", description := none, creator := 1,
    members := [{ user := 1, joinedAt := 0, role := "admin" }],
    maxMembers := 2, isPrivate := false, lastActivity := 0 }

/-- Sample message `i` in room 0, sent by user 1 at time `t`. -/
def exMsg (i t : Nat) : Message :=
  { id := i, content := "hi", sender := 1, room := 0, type := "text",
    edited := false, editedAt := none, readBy := [], replyTo := none,
    createdAt := t }

/-- Sample store: room 0 with sole member 1, five messages in room 0,
users 1 (member) and 2 (non-member). -/
def exStore : Store :=
  { rooms := [exRoom],
    messages := [exMsg 1 1, exMsg 2 2, exMsg 3 3, exMsg 4 4, exMsg 5 5],
    users := [{ id := 1, rooms := [0] }, { id := 2, rooms := [] }] }

/-- Sample full room: capacity 2, already holding members 1 and 3. -/
def exFullRoom : Room :=
  { exRoom with
      members := [{ user := 1, joinedAt := 0, role := "admin" },
                  { user := 3, joinedAt := 1, role := "member" }] }

/-- Store holding only the full room. -/
def exFullStore : Store :=
  { rooms := [exFullRoom], messages := [], users := [{ id := 2, rooms := [] }] }

/-! ## Claims -/

/-- C1: the spec states that a `createRoom` request without a `code` field
gets a generated unique code and a 201 answer.  The code disagrees with
its own intent: `createRoomSchema` (`room.js` line 11) marks `code` as
`required()`, so such a request is rejected with 400 before the
generation branch (`room.js` lines 40–47, guarded by `if (!code)` and
commented "Generate code if not provided") can run — that branch is
unreachable.  This theorem evaluates the handler at the failing input
`{name: "Team"}` (no code): validation fails and every call answers 400
with the store untouched. -/
theorem C1_create_without_code_rejected :
    createRoomValidate
      { name := some "Team", code := none, description := none,
        maxMembers := none, isPrivate := none } = false ∧
    createRoom exStore
      { name := some "Team", code := none, description := none,
        maxMembers := none, isPrivate := none } 1 5 7 = (400, exStore) ∧
    createRoom { rooms := [], messages := [], users := [] }
      { name := some "Team", code := none, description := none,
        maxMembers := none, isPrivate := none } 1 5 7
      = (400, { rooms := [], messages := [], users := [] }) := by
  decide

/-- C3: joining an existing room that is already at capacity
(`members.length >= maxMembers`), as a caller who is not already a
member, answers 409 and leaves the store (in particular the room's
membership list) unchanged (`room.js` lines 119–143). -/
theorem C3_join_full_room_conflict (st : Store) (code : String) (room : Room)
    (callerId now : Nat)
    (hval : joinRoomValidate (some code) = true)
    (hfind : st.rooms.find? (fun r => r.code = jsToUpper code) = some room)
    (hnm : isMember room callerId = false)
    (hfull : room.maxMembers ≤ room.members.length) :
    joinRoom st (some code) callerId now = (409, st) := by
  simp [joinRoom, hval, hfind, hnm, hfull]

/-- Witness for C3 at the sample full store: user 2 tries to join the
full room by its (lower-cased) code. -/
theorem C3_join_full_room_conflict_witness :
    (joinRoomValidate (some "abcd") = true ∧
     exFullStore.rooms.find? (fun r => r.code = jsToUpper "abcd") = some exFullRoom ∧
     isMember exFullRoom 2 = false ∧
     exFullRoom.maxMembers ≤ exFullRoom.members.length) ∧
    joinRoom exFullStore (some "abcd") 2 7 = (409, exFullStore) := by
  refine ⟨⟨by decide, by decide, by decide, by decide⟩, ?_⟩
  exact C3_join_full_room_conflict exFullStore "abcd" exFullRoom 2 7
    (by decide) (by decide) (by decide) (by decide)

/-- C6: editing or deleting an existing message as a caller who is not
its sender answers 403 and leaves the store unchanged, for every message
state (`edited`, `editedAt`, `readBy`, `type`, …) and every valid
content (`messages.js` lines 192–196 and 231–235). -/
theorem C6_nonsender_edit_delete_forbidden (st : Store) (mid : Nat)
    (m : Message) (content : Option String) (callerId now : Nat)
    (hfind : st.messages.find? (fun x => x.id = mid) = some m)
    (hval : editContentValid content = true)
    (hns : m.sender ≠ callerId) :
    editMessage st mid content callerId now = (403, st) ∧
    deleteMessage st mid callerId = (403, st) := by
  constructor
  · simp [editMessage, hval, hfind, hns]
  · simp [deleteMessage, hfind, hns]

/-- Witness for C6: user 2 (not the sender, user 1) tries to edit and to
delete message 3 of the sample store. -/
theorem C6_nonsender_edit_delete_forbidden_witness :
    (exStore.messages.find? (fun x => x.id = 3) = some (exMsg 3 3) ∧
     editContentValid (some "new text") = true ∧
     (exMsg 3 3).sender ≠ 2) ∧
    editMessage exStore 3 (some "new text") 2 9 = (403, exStore) ∧
    deleteMessage exStore 3 2 = (403, exStore) := by
  refine ⟨⟨by decide, by decide, by decide⟩, ?_⟩
  exact C6_nonsender_edit_delete_forbidden exStore 3 (exMsg 3 3)
    (some "new text") 2 9 (by decide) (by decide) (by decide)

/-- C2 counterexample: the claim states that a non-member marking a
message as read gets 403.  In the sample store user 2 is not a member of
room 0, yet `markRead` on message 3 (which lives in room 0) answers 200:
the `POST /:messageId/read` handler has no membership check. -/
theorem C2_counterexample :
    exStore.rooms.find? (fun r => r.id = 0) = some exRoom ∧
    isMember exRoom 2 = false ∧
    exStore.messages.find? (fun x => x.id = 3) = some (exMsg 3 3) ∧
    (exMsg 3 3).room = 0 ∧
    (markRead exStore 3 2 9).1 = 200 ∧
    (markRead exStore 3 2 9).1 ≠ 403 := by
  decide

/-- C2 (amended): a caller who is not a member of an existing room gets
403 from listing the room's messages and from sending a message into it;
but `markRead` performs no membership check, so marking any existing
message of the room as read succeeds with 200 for the non-member
(`messages.js` lines 32–40, 91–99, 136–162). -/
theorem C2_nonmember_list_send_forbidden_markRead_succeeds
    (st : Store) (roomId : Nat) (room : Room) (callerId : Nat)
    (hfind : st.rooms.find? (fun r => r.id = roomId) = some room)
    (hnm : isMember room callerId = false) :
    (∀ pageQ limitQ, listMessages st roomId pageQ limitQ callerId = .err 403) ∧
    (∀ b now freshId, sendMessageValidate b = true → b.roomId = some roomId →
      sendMessage st b callerId now freshId = (403, st)) ∧
    (∀ mid msg now, st.messages.find? (fun x => x.id = mid) = some msg →
      msg.room = roomId → (markRead st mid callerId now).1 = 200) := by
  refine ⟨?_, ?_, ?_⟩
  · intro pageQ limitQ
    simp [listMessages, hfind, hnm]
  · intro b now freshId hval hrid
    match hb : b.content with
    | none => simp [sendMessageValidate, hb] at hval
    | some c => simp [sendMessage, hval, hb, hrid, hfind, hnm]
  · intro mid msg now hmfind hroom
    by_cases h : msg.readBy.any (fun r => r.user = callerId)
    · simp [markRead, hmfind, h]
    · simp [markRead, hmfind, h]

/-- Witness for the amended C2 at the sample store: user 2 is not a
member of room 0; listing answers 403, sending a valid message answers
403, and marking message 3 as read answers 200. -/
theorem C2_nonmember_witness :
    (exStore.rooms.find? (fun r => r.id = 0) = some exRoom ∧
     isMember exRoom 2 = false) ∧
    listMessages exStore 0 (some 1) (some 2) 2 = .err 403 ∧
    sendMessage exStore
      { content := some "yo", roomId := some 0, type := none, replyTo := none }
      2 9 6 = (403, exStore) ∧
    (markRead exStore 3 2 9).1 = 200 := by
  have h := C2_nonmember_list_send_forbidden_markRead_succeeds exStore 0 exRoom 2
    (by decide) (by decide)
  exact ⟨⟨by decide, by decide⟩,
    h.1 (some 1) (some 2),
    h.2.1 { content := some "yo", roomId := some 0, type := none, replyTo := none }
      9 6 (by decide) rfl,
    h.2.2 3 (exMsg 3 3) 9 (by decide) (by decide)⟩

/-- C5: `markRead` is idempotent.  For an existing message whose `readBy`
respects the data-model invariant of at most one entry per user, the
first call answers 200 and leaves exactly one `readBy` entry for the
caller, and any later call (at any time) is a no-op on the store and
still answers 200 (`messages.js` lines 147–162). -/
theorem C5_markRead_idempotent (st : Store) (mid uid now now2 : Nat)
    (m : Message)
    (hfind : st.messages.find? (fun x => x.id = mid) = some m)
    (hinv : readCountFor m uid ≤ 1) :
    (markRead st mid uid now).1 = 200 ∧
    (∃ m1, (markRead st mid uid now).2.messages.find? (fun x => x.id = mid)
        = some m1 ∧ readCountFor m1 uid = 1) ∧
    markRead (markRead st mid uid now).2 mid uid now2
      = (200, (markRead st mid uid now).2) := by
  by_cases h : m.readBy.any (fun r => r.user = uid)
  · have hst : markRead st mid uid now = (200, st) := by
      simp [markRead, hfind, h]
    have hcount : readCountFor m uid = 1 := by
      obtain ⟨r, hr, hru⟩ := List.any_eq_true.mp h
      have hmem : r ∈ m.readBy.filter (fun r => r.user = uid) :=
        List.mem_filter.mpr ⟨hr, hru⟩
      have hpos : 0 < readCountFor m uid := List.length_pos_of_mem hmem
      omega
    refine ⟨by rw [hst], ⟨m, by rw [hst]; exact hfind, hcount⟩, ?_⟩
    rw [hst]
    simp [markRead, hfind, h]
  · obtain ⟨m1, hm1⟩ : ∃ m1 : Message,
        m1 = { m with readBy := m.readBy ++ [{ user := uid, readAt := now }] } :=
      ⟨_, rfl⟩
    have hst : markRead st mid uid now
        = (200, { st with messages := updateMessageById st.messages mid m1 }) := by
      rw [hm1]
      simp [markRead, hfind, h]
    have hid1 : m1.id = mid := by
      have hm := List.find?_some hfind
      rw [hm1]
      simpa using hm
    have hfind1 : (updateMessageById st.messages mid m1).find?
        (fun x => x.id = mid) = some m1 :=
      find?_updateMessageById _ hfind hid1
    have hcount0 : m.readBy.filter (fun r => r.user = uid) = [] := by
      rw [List.filter_eq_nil_iff]
      intro r hr hru
      exact h (List.any_eq_true.mpr ⟨r, hr, hru⟩)
    have hcount1 : readCountFor m1 uid = 1 := by
      rw [hm1]
      simp [readCountFor, List.filter_append, hcount0]
    have hany1 : m1.readBy.any (fun r => r.user = uid) = true := by
      rw [hm1]
      simp
    refine ⟨by rw [hst], ⟨m1, by rw [hst]; exact hfind1, hcount1⟩, ?_⟩
    rw [hst]
    simp [markRead, hfind1, hany1]

/-- Witness for C5: user 2 marks message 3 of the sample store as read,
twice. -/
theorem C5_markRead_idempotent_witness :
    (exStore.messages.find? (fun x => x.id = 3) = some (exMsg 3 3) ∧
     readCountFor (exMsg 3 3) 2 ≤ 1) ∧
    ((markRead exStore 3 2 9).1 = 200 ∧
     (∃ m1, (markRead exStore 3 2 9).2.messages.find? (fun x => x.id = 3)
        = some m1 ∧ readCountFor m1 2 = 1) ∧
     markRead (markRead exStore 3 2 9).2 3 2 11
       = (200, (markRead exStore 3 2 9).2)) := by
  exact ⟨⟨by decide, by decide⟩,
    C5_markRead_idempotent exStore 3 2 9 11 (exMsg 3 3) (by decide) (by decide)⟩

/-- C8: a successful `sendMessage` creates a message with
`sender = callerId`, `type` the given type or `"text"` when absent,
`replyTo` the given reference or none, created at `now`, and persists the
referenced room with `lastActivity = now` (`messages.js` lines 102–120,
and the room save). -/
theorem C8_send_message (st : Store) (b : SendBody) (callerId now freshId : Nat)
    (roomId : Nat) (room : Room) (content : String)
    (hval : sendMessageValidate b = true)
    (hc : b.content = some content) (hr : b.roomId = some roomId)
    (hfind : st.rooms.find? (fun r => r.id = roomId) = some room)
    (hm : isMember room callerId = true) :
    ∃ msg : Message,
      sendMessage st b callerId now freshId =
        (201, { st with
                  messages := st.messages ++ [msg]
                  rooms := updateRoomById st.rooms roomId
                    ({ room with lastActivity := now }) }) ∧
      msg.sender = callerId ∧
      msg.content = content ∧
      msg.room = roomId ∧
      msg.type = b.type.getD "text" ∧
      (b.type = none → msg.type = "text") ∧
      msg.replyTo = b.replyTo ∧
      msg.createdAt = now ∧
      (sendMessage st b callerId now freshId).2.rooms.find?
          (fun r => r.id = roomId) = some ({ room with lastActivity := now }) := by
  obtain ⟨msg, hmsg⟩ : ∃ msg : Message,
      msg = { id := freshId, content := content, sender := callerId,
              room := roomId, type := b.type.getD "text", edited := false,
              editedAt := none, readBy := [], replyTo := b.replyTo,
              createdAt := now } := ⟨_, rfl⟩
  have hst : sendMessage st b callerId now freshId =
      (201, { st with
                messages := st.messages ++ [msg]
                rooms := updateRoomById st.rooms roomId
                  ({ room with lastActivity := now }) }) := by
    rw [hmsg]
    simp [sendMessage, hval, hc, hr, hfind, hm]
  have hrid : room.id = roomId := by
    have := List.find?_some hfind
    simpa using this
  refine ⟨msg, hst, by rw [hmsg], by rw [hmsg], by rw [hmsg], by rw [hmsg],
    fun ht => by rw [hmsg, ht]; rfl, by rw [hmsg], by rw [hmsg], ?_⟩
  rw [hst]
  exact find?_updateRoomById _ hfind hrid

/-- Witness for C8: user 1 (a member) sends "yo" of default type into
room 0 of the sample store. -/
theorem C8_send_message_witness :
    (sendMessageValidate
       { content := some "yo", roomId := some 0, type := none, replyTo := none } = true ∧
     exStore.rooms.find? (fun r => r.id = 0) = some exRoom ∧
     isMember exRoom 1 = true) ∧
    (∃ msg : Message,
      sendMessage exStore
        { content := some "yo", roomId := some 0, type := none, replyTo := none }
        1 9 6 =
        (201, { exStore with
                  messages := exStore.messages ++ [msg]
                  rooms := updateRoomById exStore.rooms 0
                    ({ exRoom with lastActivity := 9 }) }) ∧
      msg.sender = 1 ∧
      msg.content = "yo" ∧
      msg.room = 0 ∧
      msg.type = (none : Option String).getD "text" ∧
      ((none : Option String) = none → msg.type = "text") ∧
      msg.replyTo = none ∧
      msg.createdAt = 9 ∧
      (sendMessage exStore
          { content := some "yo", roomId := some 0, type := none, replyTo := none }
          1 9 6).2.rooms.find? (fun r => r.id = 0)
        = some ({ exRoom with lastActivity := 9 })) := by
  refine ⟨⟨by decide, by decide, by decide⟩, ?_⟩
  exact C8_send_message exStore
    { content := some "yo", roomId := some 0, type := none, replyTo := none }
    1 9 6 0 exRoom "yo" (by decide) rfl rfl (by decide) (by decide)

/-- C9: `leaveRoom` on an existing room answers 200 (also when the caller
was not a member), removes exactly the caller's entries from the room's
membership (other members unchanged, in order), persists the room, and
removes the room reference from the caller's User record, leaving other
users' records unchanged (`room.js` lines 230–254). -/
theorem C9_leave_room (st : Store) (roomId callerId now : Nat) (room : Room)
    (hfind : st.rooms.find? (fun r => r.id = roomId) = some room) :
    (leaveRoom st roomId callerId now).1 = 200 ∧
    (∃ room2,
      (leaveRoom st roomId callerId now).2.rooms.find?
          (fun r => r.id = roomId) = some room2 ∧
      room2.members = room.members.filter (fun mem => mem.user ≠ callerId) ∧
      (∀ mem ∈ room2.members, mem.user ≠ callerId) ∧
      (∀ mem ∈ room.members, mem.user ≠ callerId → mem ∈ room2.members) ∧
      room2.members.Sublist room.members ∧
      (isMember room callerId = false → room2.members = room.members)) ∧
    (∀ u ∈ (leaveRoom st roomId callerId now).2.users,
       u.id = callerId → roomId ∉ u.rooms) ∧
    (∀ u ∈ st.users, u.id ≠ callerId →
       u ∈ (leaveRoom st roomId callerId now).2.users) := by
  obtain ⟨room2, hroom2⟩ : ∃ room2 : Room,
      room2 = { room with
                  members := room.members.filter (fun mem => mem.user ≠ callerId)
                  lastActivity := now } := ⟨_, rfl⟩
  have hst : leaveRoom st roomId callerId now =
      (200, { st with
                rooms := updateRoomById st.rooms roomId room2
                users := pullRoomFromUser st.users callerId roomId }) := by
    rw [hroom2]
    simp [leaveRoom, hfind]
  refine ⟨by rw [hst], ⟨room2, ?_, ?_, ?_, ?_, ?_, ?_⟩, ?_, ?_⟩
  · rw [hst]
    exact find?_updateRoomById _ hfind (by rw [hroom2]; simpa using List.find?_some hfind)
  · rw [hroom2]
  · intro mem hmem
    rw [hroom2] at hmem
    simpa using (List.mem_filter.mp hmem).2
  · intro mem hmem hne
    rw [hroom2]
    exact List.mem_filter.mpr ⟨hmem, by simpa using hne⟩
  · rw [hroom2]
    exact List.filter_sublist _
  · intro hnm
    rw [hroom2]
    simp only []
    rw [List.filter_eq_self]
    intro mem hmem
    have := List.any_eq_false.mp hnm mem hmem
    simpa using this
  · intro u hu hid
    rw [hst] at hu
    simp only [pullRoomFromUser, List.mem_map] at hu
    obtain ⟨u0, hu0, hfu⟩ := hu
    by_cases h0 : u0.id = callerId
    · rw [if_pos h0] at hfu
      rw [← hfu]
      intro hmem
      simp at hmem
    · rw [if_neg h0] at hfu
      rw [← hfu] at hid
      exact absurd hid h0
  · intro u hu hne
    rw [hst]
    simp only [pullRoomFromUser, List.mem_map]
    exact ⟨u, hu, by rw [if_neg hne]⟩

/-- Witness for C9: user 1 (the sole member) leaves room 0 of the sample
store. -/
theorem C9_leave_room_witness :
    exStore.rooms.find? (fun r => r.id = 0) = some exRoom ∧
    (leaveRoom exStore 0 1 7).1 = 200 ∧
    (∃ room2,
      (leaveRoom exStore 0 1 7).2.rooms.find? (fun r => r.id = 0) = some room2 ∧
      room2.members = exRoom.members.filter (fun mem => mem.user ≠ 1)) := by
  have h := C9_leave_room exStore 0 1 7 exRoom (by decide)
  obtain ⟨room2, hfind2, hmem2, _⟩ := h.2.1
  exact ⟨by decide, h.1, room2, hfind2, hmem2⟩

/-- A character that fails the predicate survives `dropWhile`. -/
theorem mem_dropWhile_of_not {p : Char → Bool} {l : List Char} {c : Char}
    (hc : c ∈ l) (hp : p c = false) : c ∈ l.dropWhile p := by
  induction l with
  | nil => simp at hc
  | cons a t ih =>
    rw [List.dropWhile_cons]
    by_cases h : p a
    · rw [if_pos h]
      rcases List.mem_cons.mp hc with rfl | hct
      · rw [h] at hp
        cases hp
      · exact ih hct
    · rw [if_neg h]
      exact hc

/-- A string holding a non-whitespace character does not trim to empty. -/
theorem jsTrim_not_isEmpty {s : String} {c : Char} (hc : c ∈ s.data)
    (hp : isJsWhitespace c = false) : (jsTrim s).isEmpty = false := by
  have h1 : c ∈ s.data.dropWhile isJsWhitespace := mem_dropWhile_of_not hc hp
  have h2 : c ∈ (s.data.dropWhile isJsWhitespace).reverse := List.mem_reverse.mpr h1
  have h3 : c ∈ (s.data.dropWhile isJsWhitespace).reverse.dropWhile isJsWhitespace :=
    mem_dropWhile_of_not h2 hp
  have h4 : ((s.data.dropWhile isJsWhitespace).reverse.dropWhile
      isJsWhitespace).reverse ≠ [] := by
    intro hnil
    rw [List.reverse_eq_nil_iff] at hnil
    rw [hnil] at h3
    simp at h3
  cases he : (jsTrim s).isEmpty with
  | false => rfl
  | true =>
    exfalso
    apply h4
    have : jsTrim s = "" := (String.isEmpty_iff _).mp he
    have hdata : (jsTrim s).data = [] := by rw [this]
    simpa [jsTrim] using hdata

/-- C10: the `PUT /:messageId` route validates `content` only for
non-emptiness after trimming (`messages.js` lines 175–181): any content
holding at least one non-whitespace character passes the 400 check
regardless of length, so the route never answers 400 for it — in
particular content longer than the model's 1000-character maximum
(`Message.js` lines 3–9), which only the model enforces at save time,
is not rejected by the route. -/
theorem C10_edit_route_validates_only_nonempty (content : String)
    (h : ∃ c ∈ content.data, isJsWhitespace c = false) :
    editContentValid (some content) = true ∧
    (∀ (st : Store) (mid callerId now : Nat),
      (editMessage st mid (some content) callerId now).1 ≠ 400) ∧
    (1000 < content.length → modelContentMaxOk content = false) := by
  obtain ⟨c, hc, hp⟩ := h
  have hvalid : editContentValid (some content) = true := by
    simp [editContentValid, jsTrim_not_isEmpty hc hp]
  refine ⟨hvalid, ?_, ?_⟩
  · intro st mid callerId now
    unfold editMessage
    rw [if_neg (by simp [hvalid])]
    cases hf : st.messages.find? (fun x => x.id = mid) with
    | none => simp
    | some m =>
      by_cases hs : m.sender = callerId
      · simp [hs]
      · simp [hs]
  · intro hlen
    simp [modelContentMaxOk]
    omega

/-- Witness for C10 at a 1001-character content. -/
theorem C10_edit_route_validates_only_nonempty_witness :
    (∃ c ∈ (String.mk (List.replicate 1001 'a')).data,
       isJsWhitespace c = false) ∧
    editContentValid (some (String.mk (List.replicate 1001 'a'))) = true ∧
    (1000 < (String.mk (List.replicate 1001 'a')).length →
      modelContentMaxOk (String.mk (List.replicate 1001 'a')) = false) := by
  have hex : ∃ c ∈ (String.mk (List.replicate 1001 'a')).data,
      isJsWhitespace c = false :=
    ⟨'a', by rw [List.mem_replicate]; exact ⟨by decide, rfl⟩, by decide⟩
  have h := C10_edit_route_validates_only_nonempty (String.mk (List.replicate 1001 'a')) hex
  exact ⟨hex, h.1, h.2.2⟩

/-- Bounds characterising `(total + limit - 1) / limit` as
`ceil(total/limit)`. -/
theorem ceilDiv_bounds (total limit : Nat) (hl : 1 ≤ limit) :
    total ≤ ((total + limit - 1) / limit) * limit ∧
    ((total + limit - 1) / limit) * limit < total + limit := by
  have h1 : limit * ((total + limit - 1) / limit) + (total + limit - 1) % limit
      = total + limit - 1 := Nat.div_add_mod _ _
  have h2 : (total + limit - 1) % limit < limit := Nat.mod_lt _ (by omega)
  have h3 : ((total + limit - 1) / limit) * limit
      = limit * ((total + limit - 1) / limit) := Nat.mul_comm _ _
  rw [h3]
  omega

/-- The newest-first sort output is pairwise descending in `createdAt`. -/
theorem sortNewestFirst_pairwise (msgs : List Message) :
    List.Pairwise (fun a b : Message => b.createdAt ≤ a.createdAt)
      (sortNewestFirst msgs) :=
  List.sorted_insertionSort newerEq msgs

/-- C4: for a member of an existing room, `listMessages` answers 200 with
the requested page of the newest-first ordering reversed to chronological
(ascending `createdAt`) order, of length `min limit (total - skip)` where
`skip = (page-1)*limit`, with `totalPages = (total + limit - 1) / limit`
(the ceiling of `total/limit`, as the bounds conjuncts state) and
`hasMore ↔ skip + returned < total` (`messages.js` lines 43–59). -/
theorem C4_list_messages_pagination (st : Store) (roomId : Nat) (room : Room)
    (callerId page limit : Nat)
    (hpage : 1 ≤ page) (hlimit : 1 ≤ limit)
    (hfind : st.rooms.find? (fun r => r.id = roomId) = some room)
    (hm : isMember room callerId = true) :
    ∃ msgs pag,
      listMessages st roomId (some page) (some limit) callerId = .ok msgs pag ∧
      msgs = (((sortNewestFirst (st.messages.filter (fun m => m.room = roomId))).drop
        ((page - 1) * limit)).take limit).reverse ∧
      List.Pairwise (fun a b : Message => a.createdAt ≤ b.createdAt) msgs ∧
      msgs.length = min limit
        ((st.messages.filter (fun m => m.room = roomId)).length
          - (page - 1) * limit) ∧
      pag.currentPage = page ∧
      pag.totalMessages = (st.messages.filter (fun m => m.room = roomId)).length ∧
      pag.totalPages = (pag.totalMessages + limit - 1) / limit ∧
      pag.totalMessages ≤ pag.totalPages * limit ∧
      pag.totalPages * limit < pag.totalMessages + limit ∧
      (pag.hasMore = true ↔
        (page - 1) * limit + msgs.length < pag.totalMessages) := by
  have hq1 : queryIntOr (some page) 1 = page := by
    cases page with
    | zero => omega
    | succ k => rfl
  have hq2 : queryIntOr (some limit) 50 = limit := by
    cases limit with
    | zero => omega
    | succ k => rfl
  obtain ⟨pageMsgs, hpm⟩ : ∃ pageMsgs : List Message,
      pageMsgs = ((sortNewestFirst (st.messages.filter
        (fun m => m.room = roomId))).drop ((page - 1) * limit)).take limit :=
    ⟨_, rfl⟩
  obtain ⟨pag, hpag⟩ : ∃ pag : Pagination,
      pag = { currentPage := page
              totalPages := ((st.messages.filter (fun m => m.room = roomId)).length
                + limit - 1) / limit
              totalMessages := (st.messages.filter (fun m => m.room = roomId)).length
              hasMore := decide ((page - 1) * limit + pageMsgs.length
                < (st.messages.filter (fun m => m.room = roomId)).length) } :=
    ⟨_, rfl⟩
  have hres : listMessages st roomId (some page) (some limit) callerId
      = .ok pageMsgs.reverse pag := by
    rw [hpag, hpm]
    simp [listMessages, hq1, hq2, hfind, hm]
  have hlen : pageMsgs.length = min limit
      ((st.messages.filter (fun m => m.room = roomId)).length
        - (page - 1) * limit) := by
    rw [hpm]
    simp [sortNewestFirst, List.length_take, List.length_drop,
      List.length_insertionSort]
  have hbounds := ceilDiv_bounds
    (st.messages.filter (fun m => m.room = roomId)).length limit hlimit
  refine ⟨pageMsgs.reverse, pag, hres, by rw [hpm], ?_, by simpa using hlen,
    by rw [hpag], by rw [hpag], by rw [hpag], ?_, ?_, ?_⟩
  · rw [List.pairwise_reverse]
    have hsorted := sortNewestFirst_pairwise
      (st.messages.filter (fun m => m.room = roomId))
    have hsub : pageMsgs.Sublist (sortNewestFirst (st.messages.filter
        (fun m => m.room = roomId))) := by
      rw [hpm]
      exact (List.take_sublist _ _).trans (List.drop_sublist _ _)
    exact hsorted.sublist hsub
  · rw [hpag]
    exact hbounds.1
  · rw [hpag]
    exact hbounds.2
  · rw [hpag]
    simp

/-- Witness for C4, the spec's pagination scenario: page 1 with limit 2
on room 0 of the sample store (5 messages) yields the two newest
messages in chronological order, `totalPages = 3`, `hasMore = true`. -/
theorem C4_list_messages_pagination_witness :
    (1 ≤ 1 ∧ 1 ≤ 2 ∧
     exStore.rooms.find? (fun r => r.id = 0) = some exRoom ∧
     isMember exRoom 1 = true) ∧
    (∃ msgs pag,
      listMessages exStore 0 (some 1) (some 2) 1 = .ok msgs pag ∧
      msgs = (((sortNewestFirst (exStore.messages.filter
        (fun m => m.room = 0))).drop ((1 - 1) * 2)).take 2).reverse ∧
      List.Pairwise (fun a b : Message => a.createdAt ≤ b.createdAt) msgs ∧
      msgs.length = min 2
        ((exStore.messages.filter (fun m => m.room = 0)).length - (1 - 1) * 2) ∧
      pag.currentPage = 1 ∧
      pag.totalMessages = (exStore.messages.filter (fun m => m.room = 0)).length ∧
      pag.totalPages = (pag.totalMessages + 2 - 1) / 2 ∧
      pag.totalMessages ≤ pag.totalPages * 2 ∧
      pag.totalPages * 2 < pag.totalMessages + 2 ∧
      (pag.hasMore = true ↔ (1 - 1) * 2 + msgs.length < pag.totalMessages)) ∧
    listMessages exStore 0 (some 1) (some 2) 1 =
      .ok [exMsg 4 4, exMsg 5 5]
        { currentPage := 1, totalPages := 3, totalMessages := 5,
          hasMore := true } := by
  exact ⟨⟨by decide, by decide, by decide, by decide⟩,
    C4_list_messages_pagination exStore 0 exRoom 1 1 2
      (by decide) (by decide) (by decide) (by decide),
    by decide⟩

/-- Replacing a room by an id that, under distinct room ids, belongs only
to a room of the same code leaves the stored code list unchanged. -/
theorem map_code_updateRoomById (rooms : List Room) (rid : Nat)
    (room room2 : Room)
    (hids : (rooms.map (fun r => r.id)).Nodup)
    (hmem : room ∈ rooms) (hid : room.id = rid)
    (hcode : room2.code = room.code) :
    (updateRoomById rooms rid room2).map (fun r => r.code)
      = rooms.map (fun r => r.code) := by
  unfold updateRoomById
  rw [List.map_map]
  apply List.map_congr_left
  intro a ha
  simp only [Function.comp]
  by_cases h : a.id = rid
  · rw [if_pos h]
    have : a = room := List.inj_on_of_nodup_map hids ha hmem (by rw [h, hid])
    rw [hcode, this]
  · rw [if_neg h]

/-- Appending a room whose code no stored room uses keeps codes distinct. -/
theorem nodup_codes_append (rooms : List Room) (newRoom : Room)
    (hcodes : (rooms.map (fun r => r.code)).Nodup)
    (hfresh : rooms.any (fun r => r.code = newRoom.code) = false) :
    ((rooms ++ [newRoom]).map (fun r => r.code)).Nodup := by
  rw [List.map_append, List.nodup_append]
  refine ⟨hcodes, by simp, ?_⟩
  intro x hx hx2
  simp only [List.map_cons, List.map_nil, List.mem_cons, List.not_mem_nil,
    or_false] at hx2
  obtain ⟨r, hr, hrc⟩ := List.mem_map.mp hx
  have hne := List.any_eq_false.mp hfresh r hr
  rw [hx2] at hrc
  exact hne (by simpa using hrc)

/-- C7: room codes stay globally unique.  In a store with distinct room
codes (and distinct room ids), `createRoom` with an explicit code already
used by an existing room — compared case-insensitively, codes being
stored uppercase — answers 409 and creates nothing; and every operation
that touches the room collection (`createRoom`, `joinRoom`, `leaveRoom`,
`sendMessage`) preserves the no-two-rooms-share-a-code invariant
(`room.js` lines 50–60 and the room saves). -/
theorem C7_room_codes_unique (st : Store)
    (hcodes : (st.rooms.map (fun r => r.code)).Nodup)
    (hids : (st.rooms.map (fun r => r.id)).Nodup) :
    (∀ (b : CreateRoomBody) (c : String) (room : Room)
        (callerId now freshId : Nat),
      createRoomValidate b = true → b.code = some c →
      room ∈ st.rooms → room.code = jsToUpper room.code →
      jsToUpper room.code = jsToUpper c →
      createRoom st b callerId now freshId = (409, st)) ∧
    (∀ b callerId now freshId,
      (((createRoom st b callerId now freshId).2).rooms.map
        (fun r => r.code)).Nodup) ∧
    (∀ code callerId now,
      (((joinRoom st code callerId now).2).rooms.map
        (fun r => r.code)).Nodup) ∧
    (∀ roomId callerId now,
      (((leaveRoom st roomId callerId now).2).rooms.map
        (fun r => r.code)).Nodup) ∧
    (∀ b callerId now freshId,
      (((sendMessage st b callerId now freshId).2).rooms.map
        (fun r => r.code)).Nodup) := by
  refine ⟨?_, ?_, ?_, ?_, ?_⟩
  · intro b c room callerId now freshId hval hbc hmem hupper hmatch
    have hrc : room.code = jsToUpper c := hupper.trans hmatch
    have hany : st.rooms.any (fun r => r.code = jsToUpper c) = true :=
      List.any_eq_true.mpr ⟨room, hmem, by simpa using hrc⟩
    cases hn : b.name with
    | none => simp [createRoomValidate, hn] at hval
    | some name => simp [createRoom, hval, hn, hbc, hany]
  · intro b callerId now freshId
    by_cases hv : createRoomValidate b = true
    · cases hn : b.name with
      | none => simp [createRoomValidate, hn] at hv
      | some name =>
        cases hc : b.code with
        | none => simp [createRoomValidate, hn, hc] at hv
        | some c =>
          by_cases hd : st.rooms.any (fun r => r.code = jsToUpper c) = true
          · have heq : (createRoom st b callerId now freshId).2.rooms
                = st.rooms := by
              simp [createRoom, hv, hn, hc, hd]
            rw [heq]
            exact hcodes
          · rw [Bool.not_eq_true] at hd
            have heq : (createRoom st b callerId now freshId).2.rooms
                = st.rooms ++
                  [{ id := freshId, name := name, code := jsToUpper c,
                     description := b.description, creator := callerId,
                     members := [{ user := callerId, joinedAt := now,
                                   role := "admin" }],
                     maxMembers := b.maxMembers.getD 50,
                     isPrivate := b.isPrivate.getD false,
                     lastActivity := now }] := by
              simp [createRoom, hv, hn, hc, hd]
            rw [heq]
            exact nodup_codes_append st.rooms _ hcodes (by simpa using hd)
    · rw [Bool.not_eq_true] at hv
      have heq : (createRoom st b callerId now freshId).2.rooms = st.rooms := by
        simp [createRoom, hv]
      rw [heq]
      exact hcodes
  · intro code callerId now
    by_cases hv : joinRoomValidate code = true
    · cases code with
      | none => simp [joinRoomValidate] at hv
      | some c =>
        cases hf : st.rooms.find? (fun r => r.code = jsToUpper c) with
        | none =>
          have heq : (joinRoom st (some c) callerId now).2.rooms = st.rooms := by
            simp [joinRoom, hv, hf]
          rw [heq]
          exact hcodes
        | some room =>
          by_cases hm : isMember room callerId = true
          · have heq : (joinRoom st (some c) callerId now).2.rooms
                = st.rooms := by
              simp [joinRoom, hv, hf, hm]
            rw [heq]
            exact hcodes
          · rw [Bool.not_eq_true] at hm
            by_cases hfull : room.maxMembers ≤ room.members.length
            · have heq : (joinRoom st (some c) callerId now).2.rooms
                  = st.rooms := by
                simp [joinRoom, hv, hf, hm, hfull]
              rw [heq]
              exact hcodes
            · have heq : (joinRoom st (some c) callerId now).2.rooms
                  = updateRoomById st.rooms room.id
                    ({ room with
                        members := room.members ++
                          [{ user := callerId, joinedAt := now,
                             role := "member" }]
                        lastActivity := now }) := by
                simp [joinRoom, hv, hf, hm, hfull]
              rw [heq, map_code_updateRoomById st.rooms room.id room
                ({ room with
                    members := room.members ++
                      [{ user := callerId, joinedAt := now, role := "member" }]
                    lastActivity := now }) hids
                (List.mem_of_find?_eq_some hf) rfl rfl]
              exact hcodes
    · rw [Bool.not_eq_true] at hv
      have heq : (joinRoom st code callerId now).2.rooms = st.rooms := by
        simp [joinRoom, hv]
      rw [heq]
      exact hcodes
  · intro roomId callerId now
    cases hf : st.rooms.find? (fun r => r.id = roomId) with
    | none =>
      have heq : (leaveRoom st roomId callerId now).2.rooms = st.rooms := by
        simp [leaveRoom, hf]
      rw [heq]
      exact hcodes
    | some room =>
      have heq : (leaveRoom st roomId callerId now).2.rooms
          = updateRoomById st.rooms roomId
            ({ room with
                members := room.members.filter (fun m => m.user ≠ callerId)
                lastActivity := now }) := by
        simp [leaveRoom, hf]
      rw [heq, map_code_updateRoomById st.rooms roomId room
        ({ room with
            members := room.members.filter (fun m => m.user ≠ callerId)
            lastActivity := now }) hids
        (List.mem_of_find?_eq_some hf) (by simpa using List.find?_some hf) rfl]
      exact hcodes
  · intro b callerId now freshId
    by_cases hv : sendMessageValidate b = true
    · cases hc : b.content with
      | none => simp [sendMessageValidate, hc] at hv
      | some c =>
        cases hr : b.roomId with
        | none => simp [sendMessageValidate, hc, hr] at hv
        | some roomId =>
          cases hf : st.rooms.find? (fun r => r.id = roomId) with
          | none =>
            have heq : (sendMessage st b callerId now freshId).2.rooms
                = st.rooms := by
              simp [sendMessage, hv, hc, hr, hf]
            rw [heq]
            exact hcodes
          | some room =>
            by_cases hm : isMember room callerId = true
            · have heq : (sendMessage st b callerId now freshId).2.rooms
                  = updateRoomById st.rooms roomId
                    ({ room with lastActivity := now }) := by
                simp [sendMessage, hv, hc, hr, hf, hm]
              rw [heq, map_code_updateRoomById st.rooms roomId room
                ({ room with lastActivity := now }) hids
                (List.mem_of_find?_eq_some hf)
                (by simpa using List.find?_some hf) rfl]
              exact hcodes
            · rw [Bool.not_eq_true] at hm
              have heq : (sendMessage st b callerId now freshId).2.rooms
                  = st.rooms := by
                simp [sendMessage, hv, hc, hr, hf, hm]
              rw [heq]
              exact hcodes
    · rw [Bool.not_eq_true] at hv
      have heq : (sendMessage st b callerId now freshId).2.rooms = st.rooms := by
        simp [sendMessage, hv]
      rw [heq]
      exact hcodes

/-- Witness for C7: in the sample store (codes ["ABCD"], ids [0]),
creating a room with the explicit code "abcd" — taken by room 0 up to
case — answers 409, and each operation keeps codes distinct. -/
theorem C7_room_codes_unique_witness :
    ((exStore.rooms.map (fun r => r.code)).Nodup ∧
     (exStore.rooms.map (fun r => r.id)).Nodup ∧
     createRoomValidate
       { name := some "Other", code := some "abcd", description := none,
         maxMembers := none, isPrivate := none } = true ∧
     exRoom ∈ exStore.rooms ∧
     exRoom.code = jsToUpper exRoom.code ∧
     jsToUpper exRoom.code = jsToUpper "abcd") ∧
    createRoom exStore
      { name := some "Other", code := some "abcd", description := none,
        maxMembers := none, isPrivate := none } 2 9 7 = (409, exStore) ∧
    (((joinRoom exStore (some "abcd") 2 9).2).rooms.map
      (fun r => r.code)).Nodup := by
  have h := C7_room_codes_unique exStore (by decide) (by decide)
  exact ⟨⟨by decide, by decide, by decide, by decide, by decide, by decide⟩,
    h.1 { name := some "Other", code := some "abcd", description := none,
          maxMembers := none, isPrivate := none } "abcd" exRoom 2 9 7
      (by decide) rfl (by decide) (by decide) (by decide),
    h.2.2.1 (some "abcd") 2 9⟩

end Massagerie
